import Mathlib

/-!
Shallow embedding of the rename-image endpoint of
`src/backend/app/routes/images.py` (function `rename_image`, lines 139-299).

Strings are modelled as `List Char`.  The filesystem is modelled as the list
of occupied paths; `os.open(..., O_CREAT | O_EXCL | O_WRONLY)` is the
create-exclusive primitive that fails exactly when the path is occupied,
`os.rename` removes the source path and makes the target occupied, and
`os.unlink` removes a path.  The external collaborators and the
environmental failures the code reacts to are collected in an `Env`:
the image-path lookup (`db_get_image_path_by_id`), an optional injected
failure of the `os.rename` call (carrying the exception text), and an
optional injected failure of the cleanup `os.unlink` call.
-/

abbrev Str := List Char

/-- Python `str.strip()` whitespace, restricted to the ASCII whitespace
characters (the unicode ones play no role in any claim). -/
def pyWhitespace : List Char := [' ', '\t', '\n', '\r', '\x0b', '\x0c']

def isPyWs (c : Char) : Bool := pyWhitespace.contains c

/-- Python `s.strip()`: drop leading and trailing whitespace. -/
def pyStrip (s : Str) : Str :=
  ((s.dropWhile isPyWs).reverse.dropWhile isPyWs).reverse

/-- Python `s.upper()` on the ASCII letters (all reserved device names are
ASCII). -/
def pyUpper (s : Str) : Str := s.map Char.toUpper

/-- The character set of line 172, `set('<>:"/\\\\|?*!^')`: the doubled
backslash in the Python literal contributes the single set element `\`. -/
def invalid_chars : List Char :=
  ['<', '>', ':', '"', '/', '\\', '|', '?', '*', '!', '^']

/-- Lines 207-214: `CON, PRN, NUL, AUX, COM1..COM9, LPT1..LPT9`. -/
def reserved_device_names : List Str :=
  ["CON".toList, "PRN".toList, "NUL".toList, "AUX".toList,
   "COM1".toList, "COM2".toList, "COM3".toList, "COM4".toList, "COM5".toList,
   "COM6".toList, "COM7".toList, "COM8".toList, "COM9".toList,
   "LPT1".toList, "LPT2".toList, "LPT3".toList, "LPT4".toList, "LPT5".toList,
   "LPT6".toList, "LPT7".toList, "LPT8".toList, "LPT9".toList]

/-- Line 215: `new_name.split(".", 1)[0]`, the part before the first dot. -/
def baseStem (s : Str) : Str := s.takeWhile (fun c => decide (c ≠ '.'))

/-- Line 173: `any(ch in invalid_chars for ch in new_name)`. -/
def hasInvalidChar (s : Str) : Prop := ∃ c ∈ s, c ∈ invalid_chars

instance (s : Str) : Decidable (hasInvalidChar s) := by
  unfold hasInvalidChar; infer_instance

/-- Line 185: `all(ch == "." for ch in new_name)`. -/
def allDots (s : Str) : Prop := ∀ c ∈ s, c = '.'

instance (s : Str) : Decidable (allDots s) := by
  unfold allDots; infer_instance

/-- Line 196: `raw_name and (raw_name.endswith(".") or raw_name.endswith(" "))`. -/
def endsDotOrSpace (s : Str) : Prop :=
  s ≠ [] ∧ (s.getLast? = some '.' ∨ s.getLast? = some ' ')

instance (s : Str) : Decidable (endsDotOrSpace s) := by
  unfold endsDotOrSpace; infer_instance

/-- Line 216: `base_stem and base_stem.upper() in reserved_device_names`. -/
def reservedHit (s : Str) : Prop :=
  baseStem s ≠ [] ∧ pyUpper (baseStem s) ∈ reserved_device_names

instance (s : Str) : Decidable (reservedHit s) := by
  unfold reservedHit; infer_instance

/-! ### POSIX path primitives (`os.path.dirname`, `os.path.splitext`,
`os.path.join`), as used on lines 240-242. -/

/-- `posixpath.dirname`: everything up to the last `/` with trailing slashes
stripped unless the head consists only of slashes. -/
def dirname (p : Str) : Str :=
  let head := (p.reverse.dropWhile (fun c => decide (c ≠ '/'))).reverse
  if head ≠ [] ∧ (∃ c ∈ head, c ≠ '/') then
    (head.reverse.dropWhile (fun c => decide (c = '/'))).reverse
  else head

/-- The extension component of `posixpath.splitext`: the basename's suffix
from its last dot, provided the part of the basename before that dot is not
made of dots only. -/
def splitext_ext (p : Str) : Str :=
  let base := (p.reverse.takeWhile (fun c => decide (c ≠ '/'))).reverse
  match base.reverse.dropWhile (fun c => decide (c ≠ '.')) with
  | [] => []
  | _ :: revStem =>
    if ∃ c ∈ revStem, c ≠ '.' then
      '.' :: (base.reverse.takeWhile (fun c => decide (c ≠ '.'))).reverse
    else []

/-- `posixpath.join` with a single second component. -/
def joinPath (a b : Str) : Str :=
  if b.head? = some '/' then b
  else if a = [] ∨ a.getLast? = some '/' then a ++ b
  else a ++ '/' :: b

/-- Line 242: `os.path.join(folder_path, new_name + extension)` with
`folder_path = dirname(image_path)` and `extension = splitext(image_path)[1]`. -/
def targetPath (image_path new_name : Str) : Str :=
  joinPath (dirname image_path) (new_name ++ splitext_ext image_path)

/-! ### Filesystem model -/

/-- Creating a file: the path becomes occupied. -/
def fsCreate (fs : List Str) (p : Str) : List Str := p :: fs

/-- `os.rename src tgt`: the source path is vacated and the target becomes
occupied (overwriting whatever was there). -/
def fsRename (fs : List Str) (src tgt : Str) : List Str :=
  tgt :: fs.filter (fun q => decide (q ≠ src ∧ q ≠ tgt))

/-- `os.unlink p`: the path is vacated. -/
def fsUnlink (fs : List Str) (p : Str) : List Str :=
  fs.filter (fun q => decide (q ≠ p))

/-! ### Environment, outcomes and run results -/

structure Env where
  /-- `db_get_image_path_by_id` (the Image Path Lookup collaborator). -/
  lookup : Str → Option Str
  /-- When `some m`: the `os.rename` call of line 266 raises an unexpected
  exception whose text is `m`. -/
  renameError : Option Str
  /-- When `some u`: the cleanup `os.unlink` call of line 274 raises an
  `OSError` whose text is `u`. -/
  unlinkError : Option Str

inductive Outcome where
  | ok (message : Str)
  | err (statusCode : Nat) (errorKind : Str) (message : Str)
deriving DecidableEq

def Outcome.isOk : Outcome → Bool
  | .ok _ => true
  | .err _ _ _ => false

structure RunResult where
  outcome : Outcome
  fs : List Str
  log : List Str
deriving DecidableEq

/-! ### Response and log texts (verbatim from the source) -/

/-- An apostrophe character. -/
def apos : Char := Char.ofNat 39

def veKind : Str := "Validation Error".toList
def nfKind : Str := "Image Not Found".toList
def feKind : Str := "File Exists".toList
def ieKind : Str := "Internal server error".toList
def msgEmptyId : Str := "Image ID cannot be empty".toList
def msgEmptyName : Str := "New image name cannot be empty".toList
def msgInvalidChars : Str := "New image name contains invalid characters.".toList
def msgAllDots : Str :=
  "New image name cannot be ".toList ++ [apos, '.', apos] ++ " , ".toList ++
    [apos, '.', '.', apos] ++ " or consist only of dots.".toList
def msgTrailing : Str := "New image name cannot end with a dot or space.".toList
def msgReserved : Str :=
  ("New image name cannot use a reserved Windows device name " ++
    "(CON, PRN, NUL, AUX, COM1–COM9, LPT1–LPT9).").toList
def nfMsg (image_id : Str) : Str :=
  "Image with ID ".toList ++ [apos] ++ image_id ++ [apos] ++
    " does not exist.".toList
def feMsg : Str := "A file with the new name already exists.".toList
def okMsg (new_name extension : Str) : Str :=
  "Successfully renamed image to ".toList ++ [apos] ++ new_name ++ extension ++ [apos]
def ieMsg (cause : Str) : Str := "Unable to rename image: ".toList ++ cause
def cleanupLogMsg (path errText : Str) : Str :=
  "Failed to clean up placeholder file ".toList ++ [apos] ++ path ++ [apos] ++
    ": ".toList ++ errText
def outerLogMsg (cause : Str) : Str := "Error renaming image: ".toList ++ cause

/-- The exception text when `os.rename`'s source path does not exist. -/
def enoentMsg : Str := "No such file or directory".toList

/-- The error, if any, raised by the `os.rename` call of line 266: either the
injected environmental failure, or a missing source file. -/
def renameStepError (env : Env) (fs : List Str) (src : Str) : Option Str :=
  match env.renameError with
  | some m => some m
  | none => if src ∈ fs then none else some enoentMsg

/-- Lines 240-285: path construction, atomic reservation of the target with
create-exclusive, the rename itself, and on an unexpected rename failure the
unlink of the placeholder (a cleanup failure is logged and the original cause
still propagates to the outer handler, which answers 500). -/
def attemptRename (env : Env) (fs : List Str) (image_path new_name : Str) :
    RunResult :=
  let new_file_path := targetPath image_path new_name
  if new_file_path ∈ fs then ⟨.err 400 feKind feMsg, fs, []⟩
  else
    let fs1 := fsCreate fs new_file_path
    match renameStepError env fs1 image_path with
    | none =>
      ⟨.ok (okMsg new_name (splitext_ext image_path)),
       fsRename fs1 image_path new_file_path, []⟩
    | some cause =>
      match env.unlinkError with
      | none =>
        ⟨.err 500 ieKind (ieMsg cause), fsUnlink fs1 new_file_path,
         [outerLogMsg cause]⟩
      | some u =>
        ⟨.err 500 ieKind (ieMsg cause), fs1,
         [cleanupLogMsg new_file_path u, outerLogMsg cause]⟩

/-- Lines 229-238 followed by the rename protocol: resolve the image path via
`db_get_image_path_by_id`; a missing (or falsy, i.e. empty) path answers 404. -/
def lookupAndRename (env : Env) (fs : List Str) (image_id new_name : Str) :
    RunResult :=
  match env.lookup image_id with
  | none => ⟨.err 404 nfKind (nfMsg image_id), fs, []⟩
  | some image_path =>
    if image_path = [] then ⟨.err 404 nfKind (nfMsg image_id), fs, []⟩
    else attemptRename env fs image_path new_name

/-- The endpoint `rename_image` (lines 139-299).  Validation raises
`HTTPException`s that the outer handler re-raises unchanged; after validation
the lookup and the atomic-reservation rename protocol run. -/
def rename_image (env : Env) (fs : List Str)
    (request_image_id request_rename : Str) : RunResult :=
  let image_id := pyStrip request_image_id
  let raw_name := request_rename
  let new_name := pyStrip raw_name
  if image_id = [] then ⟨.err 400 veKind msgEmptyId, fs, []⟩
  else if new_name = [] then ⟨.err 400 veKind msgEmptyName, fs, []⟩
  else if hasInvalidChar new_name then ⟨.err 400 veKind msgInvalidChars, fs, []⟩
  else if allDots new_name then ⟨.err 400 veKind msgAllDots, fs, []⟩
  else if endsDotOrSpace raw_name then ⟨.err 400 veKind msgTrailing, fs, []⟩
  else if reservedHit new_name then ⟨.err 400 veKind msgReserved, fs, []⟩
  else lookupAndRename env fs image_id new_name

/-- The validation chain exactly as the specification orders it: empty
trimmed id, empty trimmed name, invalid character, all-dots name, trailing
dot or space on the untrimmed name, reserved device name; the first failing
rule's message is returned. -/
def firstValidationError (request_image_id request_rename : Str) : Option Str :=
  if pyStrip request_image_id = [] then some msgEmptyId
  else if pyStrip request_rename = [] then some msgEmptyName
  else if hasInvalidChar (pyStrip request_rename) then some msgInvalidChars
  else if allDots (pyStrip request_rename) then some msgAllDots
  else if endsDotOrSpace request_rename then some msgTrailing
  else if reservedHit (pyStrip request_rename) then some msgReserved
  else none

/-! ### List helper lemmas -/

lemma dropWhile_append_all {p : Char → Bool} {l r : List Char}
    (h : ∀ a ∈ l, p a = true) : (l ++ r).dropWhile p = r.dropWhile p := by
  induction l with
  | nil => rfl
  | cons a t ih =>
    simp only [List.cons_append, List.dropWhile_cons, h a (by simp)]
    exact ih (fun b hb => h b (by simp [hb]))

lemma dropWhile_all {p : Char → Bool} {l : List Char}
    (h : ∀ a ∈ l, p a = true) : l.dropWhile p = [] := by
  have := dropWhile_append_all (r := []) h
  simpa using this

lemma dropWhile_cons_of_false {p : Char → Bool} {a : Char} {l : List Char}
    (h : p a = false) : (a :: l).dropWhile p = a :: l := by
  simp [List.dropWhile_cons, h]

lemma dropWhile_head_false {p : Char → Bool} {l : List Char} {a : Char}
    {t : List Char} (h : l.dropWhile p = a :: t) : p a = false := by
  induction l with
  | nil => simp at h
  | cons b l ih =>
    rw [List.dropWhile_cons] at h
    split_ifs at h with hb
    · exact ih h
    · injection h with h1 _
      subst h1
      simpa using hb

lemma mem_takeWhile_pred {p : Char → Bool} {l : List Char} {a : Char}
    (h : a ∈ l.takeWhile p) : p a = true := by
  induction l with
  | nil => simp [List.takeWhile] at h
  | cons b l ih =>
    rw [List.takeWhile_cons] at h
    split_ifs at h with hb
    · rcases List.mem_cons.mp h with rfl | h'
      · exact hb
      · exact ih h'
    · simp at h

lemma mem_takeWhile_mem {p : Char → Bool} {l : List Char} {a : Char}
    (h : a ∈ l.takeWhile p) : a ∈ l := by
  induction l with
  | nil => simp [List.takeWhile] at h
  | cons b l ih =>
    rw [List.takeWhile_cons] at h
    split_ifs at h with hb
    · rcases List.mem_cons.mp h with rfl | h'
      · simp
      · simp [ih h']
    · simp at h

lemma fsUnlink_fsCreate_of_not_mem (fs : List Str) (p : Str) (h : p ∉ fs) :
    fsUnlink (fsCreate fs p) p = fs := by
  unfold fsUnlink fsCreate
  rw [List.filter_cons]
  have hpp : (decide (p ≠ p)) = false := by simp
  rw [hpp]
  simp only [Bool.false_eq_true, if_false]
  apply List.filter_eq_self.mpr
  intro a ha
  simp only [decide_eq_true_eq]
  rintro rfl
  exact h ha

/-! ### Reduction lemmas for the endpoint -/

lemma fve_none_iff (i n : Str) :
    firstValidationError i n = none ↔
      pyStrip i ≠ [] ∧ pyStrip n ≠ [] ∧ ¬hasInvalidChar (pyStrip n) ∧
        ¬allDots (pyStrip n) ∧ ¬endsDotOrSpace n ∧ ¬reservedHit (pyStrip n) := by
  unfold firstValidationError
  split_ifs with h1 h2 h3 h4 h5 h6 <;> simp_all

lemma rename_image_of_valid (env : Env) (fs : List Str) (i n : Str)
    (h : firstValidationError i n = none) :
    rename_image env fs i n = lookupAndRename env fs (pyStrip i) (pyStrip n) := by
  obtain ⟨h1, h2, h3, h4, h5, h6⟩ := (fve_none_iff i n).mp h
  simp only [rename_image]
  rw [if_neg h1, if_neg h2, if_neg h3, if_neg h4, if_neg h5, if_neg h6]

lemma rename_image_of_invalid (env : Env) (fs : List Str) (i n m : Str)
    (h : firstValidationError i n = some m) :
    rename_image env fs i n = ⟨.err 400 veKind m, fs, []⟩ := by
  unfold firstValidationError at h
  simp only [rename_image]
  split_ifs at h ⊢ <;> injection h with h' <;> rw [h']

lemma attemptRename_collision (env : Env) (fs : List Str)
    (image_path new_name : Str) (h : targetPath image_path new_name ∈ fs) :
    attemptRename env fs image_path new_name = ⟨.err 400 feKind feMsg, fs, []⟩ := by
  simp only [attemptRename]
  rw [if_pos h]

lemma attemptRename_renamefail_clean (env : Env) (fs : List Str)
    (image_path new_name cause : Str)
    (hfree : targetPath image_path new_name ∉ fs)
    (hr : renameStepError env (fsCreate fs (targetPath image_path new_name))
            image_path = some cause)
    (hu : env.unlinkError = none) :
    attemptRename env fs image_path new_name =
      ⟨.err 500 ieKind (ieMsg cause), fs, [outerLogMsg cause]⟩ := by
  simp only [attemptRename]
  rw [if_neg hfree]
  simp only [hr, hu]
  simp [fsUnlink_fsCreate_of_not_mem fs _ hfree]

lemma attemptRename_renamefail_dirty (env : Env) (fs : List Str)
    (image_path new_name cause u : Str)
    (hfree : targetPath image_path new_name ∉ fs)
    (hr : renameStepError env (fsCreate fs (targetPath image_path new_name))
            image_path = some cause)
    (hu : env.unlinkError = some u) :
    attemptRename env fs image_path new_name =
      ⟨.err 500 ieKind (ieMsg cause),
       fsCreate fs (targetPath image_path new_name),
       [cleanupLogMsg (targetPath image_path new_name) u, outerLogMsg cause]⟩ := by
  simp only [attemptRename]
  rw [if_neg hfree]
  simp only [hr, hu]

lemma attemptRename_ok_shape (env : Env) (fs : List Str)
    (image_path new_name : Str)
    (hfree : targetPath image_path new_name ∉ fs)
    (hr : renameStepError env (fsCreate fs (targetPath image_path new_name))
            image_path = none) :
    attemptRename env fs image_path new_name =
      ⟨.ok (okMsg new_name (splitext_ext image_path)),
       fsRename (fsCreate fs (targetPath image_path new_name)) image_path
         (targetPath image_path new_name), []⟩ := by
  simp only [attemptRename]
  rw [if_neg hfree]
  simp only [hr]

lemma attemptRename_ok_inversion (env : Env) (fs : List Str)
    (image_path new_name : Str)
    (hok : (attemptRename env fs image_path new_name).outcome.isOk = true) :
    targetPath image_path new_name ∉ fs ∧
      renameStepError env (fsCreate fs (targetPath image_path new_name))
        image_path = none := by
  by_cases hfree : targetPath image_path new_name ∈ fs
  · rw [attemptRename_collision env fs _ _ hfree] at hok
    simp [Outcome.isOk] at hok
  · refine ⟨hfree, ?_⟩
    cases hr : renameStepError env (fsCreate fs (targetPath image_path new_name))
        image_path with
    | none => rfl
    | some cause =>
      exfalso
      cases hu : env.unlinkError with
      | none =>
        rw [attemptRename_renamefail_clean env fs _ _ cause hfree hr hu] at hok
        simp [Outcome.isOk] at hok
      | some u =>
        rw [attemptRename_renamefail_dirty env fs _ _ cause u hfree hr hu] at hok
        simp [Outcome.isOk] at hok

lemma rename_image_ok_inversion (env : Env) (fs : List Str) (i n : Str)
    (hok : (rename_image env fs i n).outcome.isOk = true) :
    firstValidationError i n = none ∧
      ∃ p, env.lookup (pyStrip i) = some p ∧ p ≠ [] ∧
        targetPath p (pyStrip n) ∉ fs ∧
        renameStepError env (fsCreate fs (targetPath p (pyStrip n))) p = none ∧
        rename_image env fs i n =
          ⟨.ok (okMsg (pyStrip n) (splitext_ext p)),
           fsRename (fsCreate fs (targetPath p (pyStrip n))) p
             (targetPath p (pyStrip n)), []⟩ := by
  cases hfv : firstValidationError i n with
  | some m =>
    rw [rename_image_of_invalid env fs i n m hfv] at hok
    simp [Outcome.isOk] at hok
  | none =>
    refine ⟨rfl, ?_⟩
    have heq := rename_image_of_valid env fs i n hfv
    rw [heq] at hok
    cases hl : env.lookup (pyStrip i) with
    | none =>
      simp only [lookupAndRename, hl] at hok
      simp [Outcome.isOk] at hok
    | some p =>
      simp only [lookupAndRename, hl] at hok
      by_cases hp : p = []
      · rw [if_pos hp] at hok
        simp [Outcome.isOk] at hok
      · rw [if_neg hp] at hok
        obtain ⟨hfree, hr⟩ := attemptRename_ok_inversion env fs p (pyStrip n) hok
        refine ⟨p, rfl, hp, hfree, hr, ?_⟩
        rw [heq]
        simp only [lookupAndRename, hl]
        rw [if_neg hp]
        exact attemptRename_ok_shape env fs p (pyStrip n) hfree hr

/-! ### Claim theorems -/

/-- C4: the validation checks run in the order empty trimmed id, empty
trimmed name, invalid character, all-dots name, trailing dot or space on the
untrimmed name, reserved device name; the first failing rule alone determines
the reported error, every validation failure is a Validation Error with
status 400, and it happens before the lookup, for any environment and any
filesystem, which stays unchanged. -/
theorem validation_order_first_fail (env : Env) (fs : List Str) (i n m : Str)
    (h : firstValidationError i n = some m) :
    rename_image env fs i n = ⟨.err 400 veKind m, fs, []⟩ :=
  rename_image_of_invalid env fs i n m h

theorem validation_order_first_fail_witness :
    firstValidationError "  ".toList "*".toList = some msgEmptyId ∧
      rename_image ⟨fun _ => none, none, none⟩ [] "  ".toList "*".toList =
        ⟨.err 400 veKind msgEmptyId, [], []⟩ :=
  ⟨by decide,
   validation_order_first_fail ⟨fun _ => none, none, none⟩ [] "  ".toList
     "*".toList msgEmptyId (by decide)⟩

/-- C2: if validation and lookup succeed but a file already exists at the
computed target path, the create-exclusive reservation fails and the request
is answered with File Exists (400); the filesystem is returned unchanged, so
nothing was mutated and the original file is untouched. -/
theorem collision_atomic_abort (env : Env) (fs : List Str) (i n p : Str)
    (hval : firstValidationError i n = none)
    (hlook : env.lookup (pyStrip i) = some p) (hp : p ≠ [])
    (hex : targetPath p (pyStrip n) ∈ fs) :
    rename_image env fs i n = ⟨.err 400 feKind feMsg, fs, []⟩ := by
  rw [rename_image_of_valid env fs i n hval]
  simp only [lookupAndRename, hlook]
  rw [if_neg hp]
  exact attemptRename_collision env fs p (pyStrip n) hex

theorem collision_atomic_abort_witness :
    firstValidationError "i".toList "b".toList = none ∧
      targetPath "/d/a.jpg".toList (pyStrip "b".toList) ∈
        ["/d/b.jpg".toList, "/d/a.jpg".toList] ∧
      rename_image ⟨fun _ => some "/d/a.jpg".toList, none, none⟩
          ["/d/b.jpg".toList, "/d/a.jpg".toList] "i".toList "b".toList =
        ⟨.err 400 feKind feMsg, ["/d/b.jpg".toList, "/d/a.jpg".toList], []⟩ :=
  ⟨by decide, by decide,
   collision_atomic_abort ⟨fun _ => some "/d/a.jpg".toList, none, none⟩
     ["/d/b.jpg".toList, "/d/a.jpg".toList] "i".toList "b".toList
     "/d/a.jpg".toList (by decide) (by decide) (by decide) (by decide)⟩

/-- C6: when every validation rule passes but the lookup yields no path (or
the falsy empty path), the request is answered with Image Not Found (404) and
the filesystem is returned unchanged — for every filesystem, so no
filesystem call is made. -/
theorem unknown_image_not_found (env : Env) (fs : List Str) (i n : Str)
    (hval : firstValidationError i n = none)
    (hlook : env.lookup (pyStrip i) = none ∨ env.lookup (pyStrip i) = some []) :
    rename_image env fs i n = ⟨.err 404 nfKind (nfMsg (pyStrip i)), fs, []⟩ := by
  rw [rename_image_of_valid env fs i n hval]
  rcases hlook with h | h
  · simp only [lookupAndRename, h]
  · simp [lookupAndRename, h]

theorem unknown_image_not_found_witness :
    firstValidationError "ghost".toList "b".toList = none ∧
      rename_image ⟨fun _ => none, none, none⟩ ["/d/a.jpg".toList]
          "ghost".toList "b".toList =
        ⟨.err 404 nfKind (nfMsg (pyStrip "ghost".toList)), ["/d/a.jpg".toList], []⟩ :=
  ⟨by decide,
   unknown_image_not_found ⟨fun _ => none, none, none⟩ ["/d/a.jpg".toList]
     "ghost".toList "b".toList (by decide) (Or.inl rfl)⟩

/-- C7: a rename value whose trimmed form contains one of the characters
`< > : " / \ | ? * ! ^` is always answered with a Validation Error (status
400) and the filesystem is returned unchanged. -/
theorem invalid_char_validation (env : Env) (fs : List Str) (i n : Str)
    (c : Char) (hc : c ∈ pyStrip n) (hinv : c ∈ invalid_chars) :
    ∃ m, rename_image env fs i n = ⟨.err 400 veKind m, fs, []⟩ := by
  by_cases h1 : pyStrip i = []
  · exact ⟨msgEmptyId, rename_image_of_invalid env fs i n msgEmptyId
      (by unfold firstValidationError; rw [if_pos h1])⟩
  · have h2 : pyStrip n ≠ [] := by
      intro h0
      rw [h0] at hc
      simp at hc
    have h3 : hasInvalidChar (pyStrip n) := ⟨c, hc, hinv⟩
    exact ⟨msgInvalidChars, rename_image_of_invalid env fs i n msgInvalidChars
      (by unfold firstValidationError; rw [if_neg h1, if_neg h2, if_pos h3])⟩

theorem invalid_char_validation_witness :
    ('*' ∈ pyStrip "bad*name".toList) ∧ ('*' ∈ invalid_chars) ∧
      ∃ m, rename_image ⟨fun _ => some "/d/a.jpg".toList, none, none⟩
          ["/d/a.jpg".toList] "i".toList "bad*name".toList =
        ⟨.err 400 veKind m, ["/d/a.jpg".toList], []⟩ :=
  ⟨by decide, by decide,
   invalid_char_validation ⟨fun _ => some "/d/a.jpg".toList, none, none⟩
     ["/d/a.jpg".toList] "i".toList "bad*name".toList '*' (by decide) (by decide)⟩

/-- C8: a rename value whose trimmed stem before the first dot equals,
case-insensitively (via upper-casing, as the code does), one of the reserved
device names is always answered with a Validation Error (status 400) and the
filesystem is returned unchanged. -/
theorem reserved_device_validation (env : Env) (fs : List Str) (i n : Str)
    (h : pyUpper (baseStem (pyStrip n)) ∈ reserved_device_names) :
    ∃ m, rename_image env fs i n = ⟨.err 400 veKind m, fs, []⟩ := by
  have hstem : baseStem (pyStrip n) ≠ [] := by
    intro h0
    rw [h0] at h
    revert h
    decide
  by_cases h1 : pyStrip i = []
  · exact ⟨msgEmptyId, rename_image_of_invalid env fs i n msgEmptyId
      (by unfold firstValidationError; rw [if_pos h1])⟩
  · have h2 : pyStrip n ≠ [] := by
      intro h0
      apply hstem
      rw [h0]
      rfl
    by_cases h3 : hasInvalidChar (pyStrip n)
    · exact ⟨msgInvalidChars, rename_image_of_invalid env fs i n msgInvalidChars
        (by unfold firstValidationError; rw [if_neg h1, if_neg h2, if_pos h3])⟩
    · by_cases h4 : allDots (pyStrip n)
      · exact ⟨msgAllDots, rename_image_of_invalid env fs i n msgAllDots
          (by unfold firstValidationError
              rw [if_neg h1, if_neg h2, if_neg h3, if_pos h4])⟩
      · by_cases h5 : endsDotOrSpace n
        · exact ⟨msgTrailing, rename_image_of_invalid env fs i n msgTrailing
            (by unfold firstValidationError
                rw [if_neg h1, if_neg h2, if_neg h3, if_neg h4, if_pos h5])⟩
        · have h6 : reservedHit (pyStrip n) := ⟨hstem, h⟩
          exact ⟨msgReserved, rename_image_of_invalid env fs i n msgReserved
            (by unfold firstValidationError
                rw [if_neg h1, if_neg h2, if_neg h3, if_neg h4, if_neg h5,
                  if_pos h6])⟩

theorem reserved_device_validation_witness :
    pyUpper (baseStem (pyStrip "con.jpg".toList)) ∈ reserved_device_names ∧
      ∃ m, rename_image ⟨fun _ => some "/d/a.jpg".toList, none, none⟩
          ["/d/a.jpg".toList] "i".toList "con.jpg".toList =
        ⟨.err 400 veKind m, ["/d/a.jpg".toList], []⟩ :=
  ⟨by decide,
   reserved_device_validation ⟨fun _ => some "/d/a.jpg".toList, none, none⟩
     ["/d/a.jpg".toList] "i".toList "con.jpg".toList (by decide)⟩

/-- C10: a trimmed rename value that starts with a dot has the empty string
as its stem before the first dot, so the guard of the reserved-device check
never fires for it; in particular the proposed name ".CON" passes the whole
validation chain (with a non-empty image id). -/
theorem leading_dot_bypasses_reserved (n : Str)
    (h : (pyStrip n).head? = some '.') :
    ¬reservedHit (pyStrip n) ∧
      firstValidationError "img".toList ".CON".toList = none := by
  constructor
  · rintro ⟨hne, -⟩
    apply hne
    cases hs : pyStrip n with
    | nil => rfl
    | cons a t =>
      rw [hs] at h
      injection h with ha
      subst ha
      simp [baseStem, List.takeWhile_cons]
  · decide

theorem leading_dot_bypasses_reserved_witness :
    (pyStrip ".CON".toList).head? = some '.' ∧
      (¬reservedHit (pyStrip ".CON".toList) ∧
        firstValidationError "img".toList ".CON".toList = none) :=
  ⟨by decide, leading_dot_bypasses_reserved ".CON".toList (by decide)⟩

/-- C3: when the rename step throws after the placeholder was created, the
caller receives an Internal server error (500) whose message carries the
underlying cause — independently of whether the cleanup unlink works; if the
unlink works the placeholder is removed and only the outer error is logged,
and if the unlink itself fails the failure is logged (with the placeholder
left) while the reported error stays the same. -/
theorem rename_failure_cleanup (env : Env) (fs : List Str) (i n p m : Str)
    (hval : firstValidationError i n = none)
    (hlook : env.lookup (pyStrip i) = some p) (hp : p ≠ [])
    (hfree : targetPath p (pyStrip n) ∉ fs)
    (hr : renameStepError env (fsCreate fs (targetPath p (pyStrip n))) p = some m) :
    (rename_image env fs i n).outcome = .err 500 ieKind (ieMsg m) ∧
      (env.unlinkError = none →
        (rename_image env fs i n).fs = fs ∧
          (rename_image env fs i n).log = [outerLogMsg m]) ∧
      (∀ u, env.unlinkError = some u →
        (rename_image env fs i n).fs =
            fsCreate fs (targetPath p (pyStrip n)) ∧
          cleanupLogMsg (targetPath p (pyStrip n)) u ∈
            (rename_image env fs i n).log) := by
  have hre : rename_image env fs i n = attemptRename env fs p (pyStrip n) := by
    rw [rename_image_of_valid env fs i n hval]
    simp only [lookupAndRename, hlook]
    rw [if_neg hp]
  rw [hre]
  cases hu : env.unlinkError with
  | none =>
    rw [attemptRename_renamefail_clean env fs p (pyStrip n) m hfree hr hu]
    exact ⟨rfl, fun _ => ⟨rfl, rfl⟩, fun u h0 => by simp at h0⟩
  | some u0 =>
    rw [attemptRename_renamefail_dirty env fs p (pyStrip n) m u0 hfree hr hu]
    refine ⟨rfl, fun h0 => by simp at h0, fun u h0 => ?_⟩
    injection h0 with h0'
    subst h0'
    exact ⟨rfl, by simp⟩

theorem rename_failure_cleanup_witness :
    renameStepError
        ⟨fun _ => some "/d/a.jpg".toList, some "disk error".toList, none⟩
        (fsCreate ["/d/a.jpg".toList] (targetPath "/d/a.jpg".toList (pyStrip "b".toList)))
        "/d/a.jpg".toList = some "disk error".toList ∧
      (rename_image ⟨fun _ => some "/d/a.jpg".toList, some "disk error".toList, none⟩
          ["/d/a.jpg".toList] "i".toList "b".toList).outcome =
        .err 500 ieKind (ieMsg "disk error".toList) ∧
      (rename_image ⟨fun _ => some "/d/a.jpg".toList, some "disk error".toList, none⟩
          ["/d/a.jpg".toList] "i".toList "b".toList).fs = ["/d/a.jpg".toList] ∧
      (rename_image ⟨fun _ => some "/d/a.jpg".toList, some "disk error".toList, none⟩
          ["/d/a.jpg".toList] "i".toList "b".toList).log =
        [outerLogMsg "disk error".toList] := by
  have h := rename_failure_cleanup
    ⟨fun _ => some "/d/a.jpg".toList, some "disk error".toList, none⟩
    ["/d/a.jpg".toList] "i".toList "b".toList "/d/a.jpg".toList
    "disk error".toList (by decide) (by decide) (by decide) (by decide) (by decide)
  exact ⟨by decide, h.1, (h.2.1 rfl).1, (h.2.1 rfl).2⟩

/-- C5: every successful rename renames the looked-up file to the target
path built from the directory of the current path, the trimmed proposed name
and the extension taken from the current path, and answers success with the
message "Successfully renamed image to '<name><ext>'". -/
theorem success_path_and_message (env : Env) (fs : List Str) (i n p : Str)
    (hlook : env.lookup (pyStrip i) = some p)
    (hok : (rename_image env fs i n).outcome.isOk = true) :
    rename_image env fs i n =
      ⟨.ok (okMsg (pyStrip n) (splitext_ext p)),
       fsRename (fsCreate fs (targetPath p (pyStrip n))) p
         (targetPath p (pyStrip n)), []⟩ := by
  obtain ⟨-, p', hl', -, -, -, heq⟩ := rename_image_ok_inversion env fs i n hok
  rw [hlook] at hl'
  injection hl' with hpp
  subst hpp
  exact heq

theorem success_path_and_message_witness :
    (Env.lookup ⟨fun s => if s = "image_123".toList
          then some "/data/old_name.jpg".toList else none, none, none⟩
        (pyStrip "image_123".toList) = some "/data/old_name.jpg".toList) ∧
      (rename_image ⟨fun s => if s = "image_123".toList
            then some "/data/old_name.jpg".toList else none, none, none⟩
          ["/data/old_name.jpg".toList] "image_123".toList "new_name".toList).outcome.isOk
        = true ∧
      rename_image ⟨fun s => if s = "image_123".toList
            then some "/data/old_name.jpg".toList else none, none, none⟩
          ["/data/old_name.jpg".toList] "image_123".toList "new_name".toList =
        ⟨.ok (okMsg (pyStrip "new_name".toList)
            (splitext_ext "/data/old_name.jpg".toList)),
         fsRename
           (fsCreate ["/data/old_name.jpg".toList]
             (targetPath "/data/old_name.jpg".toList (pyStrip "new_name".toList)))
           "/data/old_name.jpg".toList
           (targetPath "/data/old_name.jpg".toList (pyStrip "new_name".toList)),
         []⟩ :=
  ⟨by decide, by decide,
   success_path_and_message
     ⟨fun s => if s = "image_123".toList
        then some "/data/old_name.jpg".toList else none, none, none⟩
     ["/data/old_name.jpg".toList] "image_123".toList "new_name".toList
     "/data/old_name.jpg".toList (by decide) (by decide)⟩

/-- The end-to-end example of C5 in explicit terms: the resulting path is
`/data/new_name.jpg` and the message quotes `new_name.jpg`. -/
theorem success_end_to_end_example :
    rename_image ⟨fun s => if s = "image_123".toList
          then some "/data/old_name.jpg".toList else none, none, none⟩
        ["/data/old_name.jpg".toList] "image_123".toList "new_name".toList =
      ⟨.ok ("Successfully renamed image to ".toList ++ [apos] ++
          "new_name.jpg".toList ++ [apos]),
       ["/data/new_name.jpg".toList], []⟩ := by
  decide

/-- C1 counterexample: with the rename step and the cleanup unlink both
failing, the failing outcome leaves the orphaned placeholder at the target
path — the target does not end up clean, refuting the claim's failure
clause as stated. -/
theorem clean_failure_counterexample :
    (rename_image
        ⟨fun _ => some "/d/a.jpg".toList, some "disk error".toList,
          some "busy".toList⟩
        ["/d/a.jpg".toList] "i".toList "b".toList).outcome.isOk = false ∧
      targetPath "/d/a.jpg".toList (pyStrip "b".toList) ∈
        (rename_image
            ⟨fun _ => some "/d/a.jpg".toList, some "disk error".toList,
              some "busy".toList⟩
            ["/d/a.jpg".toList] "i".toList "b".toList).fs ∧
      targetPath "/d/a.jpg".toList (pyStrip "b".toList) ∉ ["/d/a.jpg".toList] := by
  decide

/-- C1 (amended): a successful outcome never leaves files at two distinct
old and new paths simultaneously; a failing outcome keeps the original file
at its original path and leaves the filesystem unchanged — except that when
the cleanup deletion of the placeholder itself fails, the orphaned
placeholder is the one extra file left at the target path. -/
theorem clean_failure_amended (env : Env) (fs : List Str) (i n p : Str)
    (hlook : env.lookup (pyStrip i) = some p) :
    ((rename_image env fs i n).outcome.isOk = true →
      ¬(p ≠ targetPath p (pyStrip n) ∧ p ∈ (rename_image env fs i n).fs ∧
          targetPath p (pyStrip n) ∈ (rename_image env fs i n).fs)) ∧
    ((rename_image env fs i n).outcome.isOk = false →
      (p ∈ fs → p ∈ (rename_image env fs i n).fs) ∧
      ((rename_image env fs i n).fs = fs ∨
        (env.unlinkError.isSome = true ∧
          (rename_image env fs i n).fs =
            fsCreate fs (targetPath p (pyStrip n)) ∧
          targetPath p (pyStrip n) ∉ fs))) := by
  constructor
  · rintro hok ⟨hne, hpmem, -⟩
    obtain ⟨-, p', hl', -, -, -, heq⟩ := rename_image_ok_inversion env fs i n hok
    rw [hlook] at hl'
    injection hl' with hpp
    subst hpp
    rw [heq] at hpmem
    rcases List.mem_cons.mp hpmem with h0 | h0
    · exact hne h0
    · have := List.mem_filter.mp h0
      simp at this
  · intro herr
    cases hfv : firstValidationError i n with
    | some m =>
      rw [rename_image_of_invalid env fs i n m hfv]
      exact ⟨fun h => h, Or.inl rfl⟩
    | none =>
      have hre0 := rename_image_of_valid env fs i n hfv
      by_cases hp : p = []
      · have : rename_image env fs i n =
            ⟨.err 404 nfKind (nfMsg (pyStrip i)), fs, []⟩ := by
          rw [hre0]
          simp only [lookupAndRename, hlook]
          rw [if_pos hp]
        rw [this]
        exact ⟨fun h => h, Or.inl rfl⟩
      · have hre : rename_image env fs i n = attemptRename env fs p (pyStrip n) := by
          rw [hre0]
          simp only [lookupAndRename, hlook]
          rw [if_neg hp]
        rw [hre] at herr ⊢
        by_cases hex : targetPath p (pyStrip n) ∈ fs
        · rw [attemptRename_collision env fs p (pyStrip n) hex]
          exact ⟨fun h => h, Or.inl rfl⟩
        · cases hr : renameStepError env
              (fsCreate fs (targetPath p (pyStrip n))) p with
          | none =>
            rw [attemptRename_ok_shape env fs p (pyStrip n) hex hr] at herr
            simp [Outcome.isOk] at herr
          | some cause =>
            cases hu : env.unlinkError with
            | none =>
              rw [attemptRename_renamefail_clean env fs p (pyStrip n) cause
                hex hr hu]
              exact ⟨fun h => h, Or.inl rfl⟩
            | some u =>
              rw [attemptRename_renamefail_dirty env fs p (pyStrip n) cause u
                hex hr hu]
              exact ⟨fun h => List.mem_cons_of_mem _ h,
                Or.inr ⟨rfl, rfl, hex⟩⟩

theorem clean_failure_amended_witness :
    ("/d/a.jpg".toList ∈
        (rename_image
            ⟨fun _ => some "/d/a.jpg".toList, some "disk error".toList,
              some "busy".toList⟩
            ["/d/a.jpg".toList] "i".toList "b".toList).fs) ∧
      ((rename_image
            ⟨fun _ => some "/d/a.jpg".toList, some "disk error".toList,
              some "busy".toList⟩
            ["/d/a.jpg".toList] "i".toList "b".toList).fs = ["/d/a.jpg".toList] ∨
        ((Env.unlinkError
            ⟨fun _ => some "/d/a.jpg".toList, some "disk error".toList,
              some "busy".toList⟩).isSome = true ∧
          (rename_image
              ⟨fun _ => some "/d/a.jpg".toList, some "disk error".toList,
                some "busy".toList⟩
              ["/d/a.jpg".toList] "i".toList "b".toList).fs =
            fsCreate ["/d/a.jpg".toList]
              (targetPath "/d/a.jpg".toList (pyStrip "b".toList)) ∧
          targetPath "/d/a.jpg".toList (pyStrip "b".toList) ∉
            ["/d/a.jpg".toList])) := by
  have h := (clean_failure_amended
    ⟨fun _ => some "/d/a.jpg".toList, some "disk error".toList,
      some "busy".toList⟩
    ["/d/a.jpg".toList] "i".toList "b".toList "/d/a.jpg".toList
    (by decide)).2 (by decide)
  exact ⟨h.1 (by decide), h.2⟩

/-! ### Path algebra needed for the repeated-rename analysis -/

lemma head_mem_of_headq {l : List Char} {a : Char} (h : l.head? = some a) :
    a ∈ l := by
  cases l with
  | nil => simp at h
  | cons b t =>
    injection h with h'
    subst h'
    simp

lemma dropWhile_cons_of_true {p : Char → Bool} {a : Char} {l : List Char}
    (h : p a = true) : (a :: l).dropWhile p = l.dropWhile p := by
  simp [List.dropWhile_cons, h]

lemma slash_not_mem_splitext_ext (p : Str) : '/' ∉ splitext_ext p := by
  have hbase : ∀ c ∈ (p.reverse.takeWhile (fun c => decide (c ≠ '/'))).reverse,
      c ≠ '/' := by
    intro c hc
    have := mem_takeWhile_pred (List.mem_reverse.mp hc)
    simpa using this
  simp only [splitext_ext]
  split
  · simp
  · split_ifs
    · intro hmem
      rcases List.mem_cons.mp hmem with h0 | h0
      · exact absurd h0.symm (by decide)
      · have h1 := List.mem_reverse.mp h0
        have h2 := mem_takeWhile_mem h1
        exact hbase '/' (List.mem_reverse.mp h2) rfl
    · simp

lemma joinPath_ne_nil {a b : Str} (hb : b ≠ []) : joinPath a b ≠ [] := by
  unfold joinPath
  split_ifs with h1 h2
  · exact hb
  · simp [hb]
  · simp

lemma dirname_shape (p : Str) :
    dirname p = [] ∨ (∀ c ∈ dirname p, c = '/') ∨
      (∃ t c, dirname p = t ++ [c] ∧ c ≠ '/') := by
  simp only [dirname]
  split_ifs with h
  · rcases hdw : (p.reverse.dropWhile (fun c => decide (c ≠ '/'))).reverse.reverse.dropWhile
        (fun c => decide (c = '/')) with _ | ⟨a, t⟩
    · left
      rfl
    · right; right
      refine ⟨t.reverse, a, ?_, ?_⟩
      · simp
      · have := dropWhile_head_false hdw
        simpa using this
  · push_neg at h
    by_cases hnil : (p.reverse.dropWhile (fun c => decide (c ≠ '/'))).reverse = []
    · left
      exact hnil
    · right; left
      intro c hc
      exact h hnil c hc

lemma join_dirname_join (d g : Str) (hgs : '/' ∉ g)
    (hd : d = [] ∨ (∀ c ∈ d, c = '/') ∨ (∃ t c, d = t ++ [c] ∧ c ≠ '/')) :
    joinPath (dirname (joinPath d g)) g = joinPath d g := by
  have hgh : g.head? ≠ some '/' := fun h => hgs (head_mem_of_headq h)
  have hgall : ∀ a ∈ g.reverse, (fun c => decide (c ≠ '/')) a = true := by
    intro a ha
    simp only [decide_eq_true_eq]
    rintro rfl
    exact hgs (List.mem_reverse.mp ha)
  have hjnil : joinPath ([] : Str) g = g := by
    unfold joinPath
    rw [if_neg hgh, if_pos (Or.inl rfl)]
    rfl
  by_cases hdnil : d = []
  · subst hdnil
    rw [hjnil]
    have hdn : dirname g = [] := by
      simp only [dirname]
      rw [dropWhile_all hgall]
      simp
    rw [hdn, hjnil]
  · rcases hd with h0 | hall | ⟨t, c, hdc, hcne⟩
    · exact absurd h0 hdnil
    · rcases List.eq_nil_or_concat d with h0 | ⟨t, c, hdc⟩
      · exact absurd h0 hdnil
      · rw [List.concat_eq_append] at hdc
        have hc : c = '/' := hall c (by rw [hdc]; simp)
        subst hc
        subst hdc
        have hlast : (t ++ ['/']).getLast? = some '/' := List.getLast?_concat t
        have hj : joinPath (t ++ ['/']) g = (t ++ ['/']) ++ g := by
          unfold joinPath
          rw [if_neg hgh, if_pos (Or.inr hlast)]
        rw [hj]
        have hrev : ((t ++ ['/']) ++ g).reverse.dropWhile
            (fun c => decide (c ≠ '/')) = (t ++ ['/']).reverse := by
          rw [List.reverse_append, dropWhile_append_all hgall]
          rw [List.reverse_append, List.reverse_singleton, List.singleton_append]
          apply dropWhile_cons_of_false
          simp
        have hdn : dirname ((t ++ ['/']) ++ g) = t ++ ['/'] := by
          simp only [dirname]
          rw [hrev, List.reverse_reverse]
          rw [if_neg ?_]
          rintro ⟨-, c', hc', hcne'⟩
          exact hcne' (hall c' hc')
        rw [hdn, hj]
    · subst hdc
      have hlast : (t ++ [c]).getLast? = some c := List.getLast?_concat t
      have hj : joinPath (t ++ [c]) g = (t ++ [c]) ++ '/' :: g := by
        unfold joinPath
        rw [if_neg hgh, if_neg ?_]
        rintro (h0 | h0)
        · exact hdnil h0
        · rw [hlast] at h0
          injection h0 with h0'
          exact hcne h0'
      rw [hj]
      have hrev : ((t ++ [c]) ++ '/' :: g).reverse.dropWhile
          (fun c' => decide (c' ≠ '/')) = '/' :: (t ++ [c]).reverse := by
        rw [List.reverse_append, List.reverse_cons, List.append_assoc,
          List.singleton_append, dropWhile_append_all hgall]
        apply dropWhile_cons_of_false
        simp
      have hcrev : (t ++ [c]).reverse = c :: t.reverse := by
        rw [List.reverse_append, List.reverse_singleton, List.singleton_append]
      have hdn : dirname ((t ++ [c]) ++ '/' :: g) = t ++ [c] := by
        simp only [dirname]
        rw [hrev]
        have hcond : ('/' :: (t ++ [c]).reverse).reverse ≠ [] ∧
            ∃ c' ∈ ('/' :: (t ++ [c]).reverse).reverse, c' ≠ '/' := by
          constructor
          · simp
          · exact ⟨c, by simp, hcne⟩
        rw [if_pos hcond, List.reverse_reverse]
        rw [dropWhile_cons_of_true (by simp), hcrev]
        rw [dropWhile_cons_of_false (by simp [hcne])]
        rw [← hcrev, List.reverse_reverse]
      rw [hdn, hj]

/-- C9 counterexample: a first rename of the extension-less file
`/data/oldfile` to `pic.png` succeeds; when the (synced) lookup then returns
the new path `/data/pic.png`, the identical second request computes the
fresh target `/data/pic.png.png` and succeeds again — refuting "it never
succeeds a second time".  The third conjunct records that this second lookup
returns exactly the new path of the first call. -/
theorem second_rename_succeeds_counterexample :
    (rename_image
        ⟨fun s => if s = "img".toList then some "/data/oldfile".toList else none,
          none, none⟩
        ["/data/oldfile".toList] "img".toList "pic.png".toList).outcome.isOk
      = true ∧
    (rename_image
        ⟨fun s => if s = "img".toList then some "/data/pic.png".toList else none,
          none, none⟩
        (rename_image
            ⟨fun s => if s = "img".toList then some "/data/oldfile".toList
              else none, none, none⟩
            ["/data/oldfile".toList] "img".toList "pic.png".toList).fs
        "img".toList "pic.png".toList).outcome.isOk = true ∧
    Env.lookup
        ⟨fun s => if s = "img".toList then some "/data/pic.png".toList else none,
          none, none⟩ (pyStrip "img".toList)
      = some (targetPath "/data/oldfile".toList (pyStrip "pic.png".toList)) := by
  decide

/-- C9 (amended): after a successful rename, repeating the identical request
fails with Image Not Found when the lookup no longer resolves the id (or
yields the falsy empty path), and fails with File Exists when the lookup
still returns the old path, or returns the new path and the new path's
extension equals the old path's extension; only when the lookup returns the
new path with a different extension (possible when the original file had no
extension) can the second identical request succeed again, as the
counterexample shows. -/
theorem second_rename_not_idempotent_amended
    (env1 env2 : Env) (fs : List Str) (i n p : Str)
    (hlook : env1.lookup (pyStrip i) = some p)
    (hok : (rename_image env1 fs i n).outcome.isOk = true) :
    ((env2.lookup (pyStrip i) = none ∨ env2.lookup (pyStrip i) = some []) →
      rename_image env2 (rename_image env1 fs i n).fs i n =
        ⟨.err 404 nfKind (nfMsg (pyStrip i)),
         (rename_image env1 fs i n).fs, []⟩) ∧
    (env2.lookup (pyStrip i) = some p →
      rename_image env2 (rename_image env1 fs i n).fs i n =
        ⟨.err 400 feKind feMsg, (rename_image env1 fs i n).fs, []⟩) ∧
    ((env2.lookup (pyStrip i) = some (targetPath p (pyStrip n)) ∧
        splitext_ext (targetPath p (pyStrip n)) = splitext_ext p) →
      rename_image env2 (rename_image env1 fs i n).fs i n =
        ⟨.err 400 feKind feMsg, (rename_image env1 fs i n).fs, []⟩) := by
  obtain ⟨hfv, p', hl', hp', hfree, -, heq⟩ :=
    rename_image_ok_inversion env1 fs i n hok
  rw [hlook] at hl'
  injection hl' with hpp
  subst hpp
  have hfs : (rename_image env1 fs i n).fs =
      fsRename (fsCreate fs (targetPath p (pyStrip n))) p
        (targetPath p (pyStrip n)) := by
    rw [heq]
  have htgt_mem : targetPath p (pyStrip n) ∈
      fsRename (fsCreate fs (targetPath p (pyStrip n))) p
        (targetPath p (pyStrip n)) := by
    simp [fsRename]
  obtain ⟨-, h2, h3, -, -, -⟩ := (fve_none_iff i n).mp hfv
  refine ⟨?_, ?_, ?_⟩
  · intro h404
    rw [hfs, rename_image_of_valid env2 _ i n hfv]
    rcases h404 with h0 | h0
    · simp only [lookupAndRename, h0]
    · simp [lookupAndRename, h0]
  · intro hl2
    rw [hfs, rename_image_of_valid env2 _ i n hfv]
    simp only [lookupAndRename, hl2]
    rw [if_neg hp']
    exact attemptRename_collision env2 _ p (pyStrip n) htgt_mem
  · rintro ⟨hl2, hext⟩
    have hslash_n : '/' ∉ pyStrip n := fun hm => h3 ⟨'/', hm, by decide⟩
    have hslash_g : '/' ∉ pyStrip n ++ splitext_ext p := by
      intro hm
      rcases List.mem_append.mp hm with hm0 | hm0
      · exact hslash_n hm0
      · exact slash_not_mem_splitext_ext p hm0
    have hgne : pyStrip n ++ splitext_ext p ≠ [] := by
      intro h0
      exact h2 (List.append_eq_nil.mp h0).1
    have htne : targetPath p (pyStrip n) ≠ [] := joinPath_ne_nil hgne
    have hre : targetPath (targetPath p (pyStrip n)) (pyStrip n) =
        targetPath p (pyStrip n) := by
      have h1 : targetPath (targetPath p (pyStrip n)) (pyStrip n) =
          joinPath (dirname (targetPath p (pyStrip n)))
            (pyStrip n ++ splitext_ext (targetPath p (pyStrip n))) := rfl
      rw [h1, hext]
      show joinPath
          (dirname (joinPath (dirname p) (pyStrip n ++ splitext_ext p)))
          (pyStrip n ++ splitext_ext p) =
        joinPath (dirname p) (pyStrip n ++ splitext_ext p)
      exact join_dirname_join (dirname p) (pyStrip n ++ splitext_ext p)
        hslash_g (dirname_shape p)
    rw [hfs, rename_image_of_valid env2 _ i n hfv]
    simp only [lookupAndRename, hl2]
    rw [if_neg htne]
    have hmem2 : targetPath (targetPath p (pyStrip n)) (pyStrip n) ∈
        fsRename (fsCreate fs (targetPath p (pyStrip n))) p
          (targetPath p (pyStrip n)) := by
      rw [hre]
      exact htgt_mem
    exact attemptRename_collision env2 _ (targetPath p (pyStrip n))
      (pyStrip n) hmem2

theorem second_rename_not_idempotent_amended_witness :
    rename_image
        ⟨fun s => if s = "img".toList then some "/data/a.jpg".toList else none,
          none, none⟩
        (rename_image
            ⟨fun s => if s = "img".toList then some "/data/a.jpg".toList
              else none, none, none⟩
            ["/data/a.jpg".toList] "img".toList "b".toList).fs
        "img".toList "b".toList =
      ⟨.err 400 feKind feMsg,
       (rename_image
           ⟨fun s => if s = "img".toList then some "/data/a.jpg".toList
             else none, none, none⟩
           ["/data/a.jpg".toList] "img".toList "b".toList).fs, []⟩ :=
  (second_rename_not_idempotent_amended
    ⟨fun s => if s = "img".toList then some "/data/a.jpg".toList else none,
      none, none⟩
    ⟨fun s => if s = "img".toList then some "/data/a.jpg".toList else none,
      none, none⟩
    ["/data/a.jpg".toList] "img".toList "b".toList "/data/a.jpg".toList
    (by decide) (by decide)).2.1 (by decide)
